import Mathlib

/-!
Shallow embedding of the thor-validation rule-compilation and validation engine
(`src/index.ts`).  Rule trees are modelled by the inductive `Rule`, JavaScript
values by `JSValue`, JavaScript numbers (IEEE doubles restricted to the values
exercised here) by `JNum`.  Compilation (`createValidator` and the per-kind rule
makers) produces either a `SchemaErr` (build-time schema error) or a `Validator`
closure; running a validator produces either `()` or a `ValErr` (run-time
validation error), mirroring the two-tier error model of the source.  The
`pattern` rule kind is not modelled (its runtime behaviour is an external
regular-expression engine); no other rule kind is omitted.
-/

namespace ThorValidation

/-- JavaScript numbers: NaN, the two infinities, and finite values (modelled as
rationals, which carry every finite double faithfully for the comparisons and
equalities the engine performs). -/
inductive JNum where
  | nan
  | inf
  | negInf
  | fin (q : ℚ)
deriving DecidableEq, Repr

/-- The JavaScript `isNaN` test on a number. -/
def JNum.isNaN : JNum → Bool
  | .nan => true
  | _ => false

/-- JavaScript `<` on numbers: any comparison involving NaN is false. -/
def JNum.lt : JNum → JNum → Bool
  | .nan, _ => false
  | _, .nan => false
  | .negInf, .negInf => false
  | .negInf, _ => true
  | _, .negInf => false
  | .inf, _ => false
  | .fin _, .inf => true
  | .fin p, .fin q => decide (p < q)

/-- JavaScript `>` on numbers. -/
def JNum.gt (a b : JNum) : Bool := JNum.lt b a

/-- JavaScript `<=` on numbers: false if either side is NaN. -/
def JNum.le : JNum → JNum → Bool
  | .nan, _ => false
  | _, .nan => false
  | a, b => !(JNum.lt b a)

/-- JavaScript `>=` on numbers. -/
def JNum.ge (a b : JNum) : Bool := JNum.le b a

/-- JavaScript strict equality `===` on numbers: NaN is not equal to itself. -/
def JNum.seq : JNum → JNum → Bool
  | .inf, .inf => true
  | .negInf, .negInf => true
  | .fin p, .fin q => decide (p = q)
  | _, _ => false

/-- Rendering of a number by JavaScript string interpolation.  Exact for NaN,
the infinities and integral values (the only numbers interpolated in this
development); non-integral rationals are rendered in num/den form. -/
def JNum.render : JNum → String
  | .nan => "NaN"
  | .inf => "Infinity"
  | .negInf => "-Infinity"
  | .fin q => if q.den = 1 then toString q.num else toString q

/-- JavaScript values, as far as the engine inspects them: `undefined`, `null`,
booleans, numbers, strings, `Date` objects (carried as their millisecond
timestamp, NaN for an invalid date), arrays and plain objects (ordered field
lists with distinct keys). -/
inductive JSValue where
  | undef
  | null
  | bool (b : Bool)
  | num (n : JNum)
  | str (s : String)
  | date (t : JNum)
  | arr (elems : List JSValue)
  | obj (fields : List (String × JSValue))

/-- The JavaScript `typeof` operator (note `typeof null`, arrays and dates are
all `"object"`). -/
def jsTypeof : JSValue → String
  | .undef => "undefined"
  | .null => "object"
  | .bool _ => "boolean"
  | .num _ => "number"
  | .str _ => "string"
  | .date _ => "object"
  | .arr _ => "object"
  | .obj _ => "object"

/-- The `getInputType` helper of the source: `typeof` refined by the `instanceof Array`
and `instanceof Date` checks. -/
def getInputType : JSValue → String
  | .arr _ => "array"
  | .date _ => "date"
  | v => jsTypeof v

/-- JavaScript strict equality `===` as used by the `equal` check.  Only
primitive values are ever compared here (the `equal` whitelist restricts its
containers to string/number/boolean/date, and dates are compared by timestamp
before this is reached), so reference equality of objects is not modelled. -/
def jsStrictEq : JSValue → JSValue → Bool
  | .undef, .undef => true
  | .null, .null => true
  | .bool a, .bool b => a == b
  | .num a, .num b => JNum.seq a b
  | .str a, .str b => a == b
  | _, _ => false

/-- Number of leap years in `[1, y]`. -/
def leapCount (y : Nat) : Nat := y / 4 - y / 100 + y / 400

/-- Cumulative day count before month `m` (1-based) in a non-leap year. -/
def daysBeforeMonth : Nat → Nat
  | 1 => 0
  | 2 => 31
  | 3 => 59
  | 4 => 90
  | 5 => 120
  | 6 => 151
  | 7 => 181
  | 8 => 212
  | 9 => 243
  | 10 => 273
  | 11 => 304
  | 12 => 334
  | _ => 0

/-- Length of month `m` (1-based) in year `y`. -/
def monthLength (y m : Nat) : Nat :=
  if m = 2 then (if y % 4 = 0 ∧ (y % 100 ≠ 0 ∨ y % 400 = 0) then 29 else 28)
  else if m = 4 ∨ m = 6 ∨ m = 9 ∨ m = 11 then 30
  else 31

/-- Days from 1970-01-01 to `y`-`m`-`d` (proleptic Gregorian, `y ≥ 1970`). -/
def daysFromEpoch (y m d : Nat) : Nat :=
  365 * (y - 1970) + (leapCount (y - 1) - leapCount 1969) +
    (daysBeforeMonth m + if 2 < m ∧ y % 4 = 0 ∧ (y % 100 ≠ 0 ∨ y % 400 = 0) then 1 else 0) +
    (d - 1)

/-- Digit value of a character, if it is a decimal digit. -/
def digitVal (c : Char) : Option Nat :=
  if c.isDigit then some (c.toNat - 48) else none

/-- Model of the external JavaScript `new Date(string)` parser, restricted to
the strict ISO `YYYY-MM-DD` form for years 1970 and later (the only date
strings exercised in this development), which JavaScript parses as UTC
midnight.  Other strings are treated as unparseable (yielding an invalid date,
i.e. a NaN timestamp). -/
def parseDate (s : String) : JNum :=
  match s.data with
  | [y1, y2, y3, y4, c1, m1, m2, c2, d1, d2] =>
    match c1, c2, digitVal y1, digitVal y2, digitVal y3, digitVal y4,
        digitVal m1, digitVal m2, digitVal d1, digitVal d2 with
    | '-', '-', some a, some b, some c, some d, some e, some f, some g, some h =>
      let y := a * 1000 + b * 100 + c * 10 + d
      let m := e * 10 + f
      let dd := g * 10 + h
      if 1970 ≤ y ∧ 1 ≤ m ∧ m ≤ 12 ∧ 1 ≤ dd ∧ dd ≤ monthLength y m then
        JNum.fin ((daysFromEpoch y m dd * 86400000 : Nat) : ℚ)
      else JNum.nan
    | _, _, _, _, _, _, _, _, _, _ => JNum.nan
  | _ => JNum.nan

/-- The timestamp `new Date(v).getTime()` for a value that is already a `Date`
or a string (the cases the engine coerces); anything else is not exercised and
yields an invalid date. -/
def coerceDateValue : JSValue → JNum
  | .str s => parseDate s
  | .date t => t
  | _ => JNum.nan

/-- Rendering of a string-or-Date rule field by JavaScript string
interpolation: exact for strings (the only case exercised by the theorems
below); the locale-dependent rendering of Date objects is abbreviated. -/
def jsDisplay : JSValue → String
  | .str s => s
  | .date t => "[Date " ++ t.render ++ "]"
  | _ => ""

/-- A property name of a `prop` rule: a string key or a numeric index. -/
inductive PropName where
  | str (s : String)
  | num (n : JNum)
deriving DecidableEq, Repr

/-- JavaScript string interpolation of a property name. -/
def PropName.render : PropName → String
  | .str s => s
  | .num n => n.render

/-- JavaScript truthiness of a property name (`!rule.name`): the empty string,
`0` and NaN are falsy. -/
def PropName.isFalsy : PropName → Bool
  | .str s => s == ""
  | .num n => n == JNum.fin 0 || n.isNaN

/-- The basic kind of a primitive-type container rule. -/
inductive PrimKind where
  | object
  | string
  | number
  | boolean
  | date
  | array
deriving DecidableEq, Repr

/-- The tag string of a primitive kind (the `type` field of the rule record). -/
def PrimKind.name : PrimKind → String
  | .object => "object"
  | .string => "string"
  | .number => "number"
  | .boolean => "boolean"
  | .date => "date"
  | .array => "array"

/-- Rule trees, as built by the factory functions of the source: each
constructor is one tagged descriptor record.  Optional `message` fields are
`Option String` (`none` when no message was supplied).  `endR` is the `end`
rule (`end` is reserved in Lean).  The `pattern` rule is not modelled. -/
inductive Rule where
  | mismatch (message : Option String)
  | equal (value : JSValue) (message : Option String)
  | min (value : JNum) (message : Option String)
  | max (value : JNum) (message : Option String)
  | less (value : JNum) (message : Option String)
  | more (value : JNum) (message : Option String)
  | before (value : JSValue) (message : Option String)
  | after (value : JSValue) (message : Option String)
  | begin (value : JSValue) (message : Option String)
  | endR (value : JSValue) (message : Option String)
  | range (minValue maxValue : JNum) (message : Option String)
  | between (beginValue endValue : JSValue) (message : Option String)
  | any (rules : List Rule)
  | need (rule : Option Rule) (message : Option String)
  | prop (name : PropName) (rule : Rule)
  | item (rule : Rule)
  | prim (kind : PrimKind) (rules : List Rule)
  | union (rules : List Rule)

/-- The `type` tag string of a rule record. -/
def Rule.type : Rule → String
  | .mismatch _ => "mismatch"
  | .equal _ _ => "equal"
  | .min _ _ => "min"
  | .max _ _ => "max"
  | .less _ _ => "less"
  | .more _ _ => "more"
  | .before _ _ => "before"
  | .after _ _ => "after"
  | .begin _ _ => "begin"
  | .endR _ _ => "end"
  | .range _ _ _ => "range"
  | .between _ _ _ => "between"
  | .any _ => "any"
  | .need _ _ => "need"
  | .prop _ _ => "prop"
  | .item _ => "item"
  | .prim k _ => k.name
  | .union _ => "union"

/-- The `message` field of a rule record (`none` for kinds without one). -/
def Rule.messageField : Rule → Option String
  | .mismatch m => m
  | .equal _ m => m
  | .min _ m => m
  | .max _ m => m
  | .less _ m => m
  | .more _ m => m
  | .before _ m => m
  | .after _ m => m
  | .begin _ m => m
  | .endR _ m => m
  | .range _ _ m => m
  | .between _ _ m => m
  | .need _ m => m
  | _ => none

/-- A run-time validation error (the `ValidationError` class). -/
structure ValErr where
  message : String
deriving DecidableEq, Repr

/-- A build-time schema error (the `SchemaError` class). -/
structure SchemaErr where
  message : String
deriving DecidableEq, Repr

/-- A compiled validator closure: throws a `ValidationError` or returns. -/
abbrev Validator := JSValue → Except ValErr Unit

/-- JavaScript truthiness of an optional message string (`if (rule.message)`).
The empty string is falsy. -/
def strTruthy : Option String → Bool
  | some s => s != ""
  | none => false

/-- Throw a custom message when one is (truthily) present, else the default. -/
def messageOr (m : Option String) (deflt : String) : String :=
  match m with
  | some s => if s != "" then s else deflt
  | none => deflt

/-- The `type` string of the parent rule, as read by the leaf makers
(`parentRule.type`; the leaf makers are only ever invoked with a parent). -/
def parentType : Option Rule → String
  | some r => r.type
  | none => ""

/-- The error thrown by a failing value/date check: the custom message when
truthily present, else the default built from the comparison text and the
rendered bound (`invalidValueMessage` in the source). -/
def invalidValueMessage (message : Option String) (value : String) (state : String) : ValErr :=
  ⟨messageOr message (state ++ " " ++ value)⟩

/-- The number carried by an input under a `number` container.  The leaf
checks are only run after the container has verified the input's kind, so the
non-number cases are unreachable; they are mapped to NaN, matching the
always-failing `isNaN` coercion the source would perform on them. -/
def inputNum : JSValue → JNum
  | .num n => n
  | _ => JNum.nan

/-- The `.length` of an input under a `string` container (unreachable for
non-strings, which the container has already excluded). -/
def inputStrLen : JSValue → Nat
  | .str s => s.length
  | _ => 0

/-- The `.length` of an input under an `array` container (unreachable for
non-arrays). -/
def inputArrLen : JSValue → Nat
  | .arr xs => xs.length
  | _ => 0

/-- The timestamp of an input already known to be a `Date`. -/
def inputTime : JSValue → JNum
  | .date t => t
  | _ => JNum.nan

/-- The `valueRuleBase` helper: shared compile/run logic of `min`/`max`/`less`/`more`.
Rejects a NaN bound at compile time; at run time compares the input value
itself under a `number` parent and the input's length under a `string` or
`array` parent, and does nothing under any other parent kind. -/
def valueRuleBase (ruleType : String) (value : JNum) (message : Option String)
    (parentRule : Option Rule) (compare : JNum → JNum → Bool) (msg : String) :
    Except SchemaErr Validator :=
  if value.isNaN then
    .error ⟨"Invalid \"" ++ ruleType ++ "\" rule: \"value\" property must be a valid number"⟩
  else
    .ok (fun input =>
      if parentType parentRule == "number" then
        if compare (inputNum input) value || (inputNum input).isNaN then
          .error (invalidValueMessage message value.render ("value " ++ msg))
        else .ok ()
      else if parentType parentRule == "string" then
        if compare (JNum.fin (inputStrLen input)) value then
          .error (invalidValueMessage message value.render ("string length " ++ msg))
        else .ok ()
      else if parentType parentRule == "array" then
        if compare (JNum.fin (inputArrLen input)) value then
          .error (invalidValueMessage message value.render ("array length " ++ msg))
        else .ok ()
      else .ok ())

/-- The `min` rule maker: fails when input < bound (inclusive lower bound). -/
def minRule (value : JNum) (message : Option String) (parentRule : Option Rule) :
    Except SchemaErr Validator :=
  valueRuleBase "min" value message parentRule (fun input target => JNum.lt input target)
    "must be greater or equal to"

/-- The `max` rule maker: fails when input > bound (inclusive upper bound). -/
def maxRule (value : JNum) (message : Option String) (parentRule : Option Rule) :
    Except SchemaErr Validator :=
  valueRuleBase "max" value message parentRule (fun input target => JNum.gt input target)
    "must be less or equal to"

/-- The `less` rule maker: fails when input >= bound (exclusive upper bound). -/
def lessRule (value : JNum) (message : Option String) (parentRule : Option Rule) :
    Except SchemaErr Validator :=
  valueRuleBase "less" value message parentRule (fun input target => JNum.ge input target)
    "must be less than"

/-- The `more` rule maker: fails when input <= bound (exclusive lower bound). -/
def moreRule (value : JNum) (message : Option String) (parentRule : Option Rule) :
    Except SchemaErr Validator :=
  valueRuleBase "more" value message parentRule (fun input target => JNum.le input target)
    "must be greater than"

/-- The `equal` rule maker: at compile time the stored value must match the
parent container's kind (with string-to-date coercion under a `date` parent);
at run time it only checks inputs whose kind matches the parent's. -/
def equalRule (value : JSValue) (message : Option String) (parentRule : Option Rule) :
    Except SchemaErr Validator :=
  let pt := parentType parentRule
  let valType := getInputType value
  let bad : Except SchemaErr Validator :=
    .error ⟨"Invalid \"equal\" rule: \"value\" property must be a valid " ++ pt⟩
  let run : Validator := fun input =>
    if pt == getInputType input then
      if pt == "date" then
        if !(JNum.seq (inputTime input) (coerceDateValue value)) then
          .error (invalidValueMessage message (jsDisplay value) "must be")
        else .ok ()
      else if !(jsStrictEq input value) then
        .error (invalidValueMessage message
          (match value with
           | .num n => n.render
           | .bool b => if b then "true" else "false"
           | v => jsDisplay v) "must be")
      else .ok ()
    else .ok ()
  if pt == "date" then
    if valType == "string" then
      if (coerceDateValue value).isNaN then bad else .ok run
    else if pt != valType then bad
    else if (inputTime value).isNaN then bad
    else .ok run
  else if pt != valType || (valType == "number" && (inputNum value).isNaN) then bad
  else .ok run

/-- The `dateRuleBase` helper: shared compile/run logic of `before`/`after`/`begin`/`end`.
The boundary must be a parseable date string or a valid `Date` at compile
time; at run time only `Date` inputs are compared (by timestamp). -/
def dateRuleBase (ruleType : String) (value : JSValue) (message : Option String)
    (compare : JNum → JNum → Bool) (msg : String) : Except SchemaErr Validator :=
  let bad : Except SchemaErr Validator :=
    .error ⟨"Invalid \"" ++ ruleType ++ "\" rule: \"value\" property must be a valid date"⟩
  let run : Validator := fun input =>
    if getInputType input == "date" then
      if compare (inputTime input) (coerceDateValue value) then
        .error (invalidValueMessage message (jsDisplay value) msg)
      else .ok ()
    else .ok ()
  if getInputType value == "string" then
    if (coerceDateValue value).isNaN then bad else .ok run
  else if getInputType value != "date" || (inputTime value).isNaN then bad
  else .ok run

/-- The `before` rule maker (exclusive upper date bound). -/
def beforeRule (value : JSValue) (message : Option String) : Except SchemaErr Validator :=
  dateRuleBase "before" value message (fun input target => JNum.ge input target)
    "Date must earlier to"

/-- The `after` rule maker (exclusive lower date bound). -/
def afterRule (value : JSValue) (message : Option String) : Except SchemaErr Validator :=
  dateRuleBase "after" value message (fun input target => JNum.le input target)
    "Date must later to"

/-- The `begin` rule maker (inclusive lower date bound). -/
def beginRule (value : JSValue) (message : Option String) : Except SchemaErr Validator :=
  dateRuleBase "begin" value message (fun input target => JNum.lt input target)
    "Date must later or equal to"

/-- The `end` rule maker (inclusive upper date bound). -/
def endRule (value : JSValue) (message : Option String) : Except SchemaErr Validator :=
  dateRuleBase "end" value message (fun input target => JNum.gt input target)
    "Date must earlier or equal to"

/-- The `range` rule maker: numeric, inclusive on both ends, `min < max`
enforced at compile time; at run time only number inputs are checked. -/
def rangeRule (minValue maxValue : JNum) (message : Option String) :
    Except SchemaErr Validator :=
  if minValue.isNaN then
    .error ⟨"Invalid \"range\" rule: \"min\" property must be a valid number"⟩
  else if maxValue.isNaN then
    .error ⟨"Invalid \"range\" rule: \"max\" property must be a valid number"⟩
  else if JNum.ge minValue maxValue then
    .error ⟨"Invalid \"range\" rule: \"min\" property must be less or equal to \"max\" property"⟩
  else
    .ok (fun input =>
      if getInputType input == "number" then
        if JNum.lt (inputNum input) minValue || JNum.gt (inputNum input) maxValue ||
            (inputNum input).isNaN then
          .error ⟨messageOr message
            ("Value must between " ++ minValue.render ++ " to " ++ maxValue.render)⟩
        else .ok ()
      else .ok ())

/-- The `checkProp` step of the `between` rule maker: resolves one boundary (a `Date`
or a parseable date string) to a timestamp, or raises a schema error naming
the property. -/
def checkBetweenProp (propName : String) (v : JSValue) : Except SchemaErr JNum :=
  let bad : Except SchemaErr JNum :=
    .error ⟨"Invalid \"between\" rule: \"" ++ propName ++ "\" property must be a valid date"⟩
  match v with
  | .date t => if t.isNaN then bad else .ok t
  | .str s => if (parseDate s).isNaN then bad else .ok (parseDate s)
  | _ => bad

/-- The `between` rule maker: two date boundaries, inclusive on both ends,
`begin < end` enforced at compile time (with the source's "ealier" typo kept);
at run time only `Date` inputs are checked. -/
def betweenRule (beginValue endValue : JSValue) (message : Option String) :
    Except SchemaErr Validator :=
  match checkBetweenProp "begin" beginValue with
  | .error e => .error e
  | .ok beginT =>
    match checkBetweenProp "end" endValue with
    | .error e => .error e
    | .ok endT =>
      if JNum.ge beginT endT then
        .error ⟨"Invalid \"between\" rule: \"begin\" property must be ealier or equal to \"end\" property"⟩
      else
        .ok (fun input =>
          if getInputType input == "date" then
            if JNum.lt (inputTime input) beginT || JNum.gt (inputTime input) endT then
              .error ⟨messageOr message
                ("Date must between " ++ jsDisplay beginValue ++ " and " ++ jsDisplay endValue)⟩
            else .ok ()
          else .ok ())

/-- Run a list of validators in declaration order against one input; the
first thrown error propagates and aborts the rest (`validate` in the source). -/
def validate (validators : List Validator) (input : JSValue) : Except ValErr Unit :=
  match validators with
  | [] => .ok ()
  | v :: rest =>
    match v input with
    | .error e => .error e
    | .ok _ => validate rest input

/-- The type-mismatch error of a primitive container: the container's
(truthy) `mismatch` override message when present, else the default naming
the expected and found kinds (`throwMismatch` in the source). -/
def mismatchErr (k : PrimKind) (mm : Option String) (inputType : String) : ValErr :=
  ⟨messageOr mm
    ("Unexpected type: require \x27" ++ k.name ++ "\x27 but found \x27" ++ inputType ++ "\x27")⟩

/-- The run-time behaviour of a compiled primitive container: skip `undefined`
and `null`; coerce string inputs of a `date` container; reject a kind
mismatch, an invalid date or a NaN number; otherwise run every child
validator against the (possibly coerced) input. -/
def primRun (k : PrimKind) (validators : List Validator) (mm : Option String) :
    Validator := fun input =>
  match input with
  | .undef => .ok ()
  | .null => .ok ()
  | _ =>
    let inputType := getInputType input
    match k, input with
    | .date, .str s =>
      if (parseDate s).isNaN then .error (mismatchErr k mm inputType)
      else validate validators (.date (parseDate s))
    | _, _ =>
      if inputType != k.name then .error (mismatchErr k mm inputType)
      else
        match input with
        | .date t =>
          if t.isNaN then .error (mismatchErr k mm "invalid date")
          else validate validators input
        | .num n =>
          if n.isNaN then .error (mismatchErr k mm "invalid number")
          else validate validators input
        | _ => validate validators input

/-- The run-time behaviour of a compiled `need` rule: throw on `undefined` or
`null` (custom truthy message, else the default `value is need`); otherwise
delegate to the wrapped validator when one exists. -/
def needRun (sub : Option Validator) (message : Option String) : Validator := fun input =>
  match input with
  | .undef => .error ⟨messageOr message "value is need"⟩
  | .null => .error ⟨messageOr message "value is need"⟩
  | _ =>
    match sub with
    | some v => v input
    | none => .ok ()

/-- Index lookup `xs[key]` on an array, matching the key against the decimal
rendering of each index. -/
def arrIndexGet (xs : List JSValue) (key : String) (i : Nat) : JSValue :=
  match xs with
  | [] => JSValue.undef
  | x :: rest => if toString i == key then x else arrIndexGet rest key (i + 1)

/-- Property access `input[name]`, for the object and array inputs the `prop`
validator reaches (array non-index properties such as `length` are not
modelled; a `Date` has no own properties). -/
def getProp (input : JSValue) (name : PropName) : JSValue :=
  match input with
  | .obj fields =>
    (fields.find? (fun p => p.1 == name.render)).elim JSValue.undef Prod.snd
  | .arr xs => arrIndexGet xs name.render 0
  | _ => JSValue.undef

/-- The run-time behaviour of a compiled `prop` rule: only acts when the
outer input is a non-null `object` (in the `typeof` sense, which includes
arrays and dates); extracts the named property, delegates, and rewraps a
failure with the property name. -/
def propRun (name : PropName) (v : Validator) : Validator := fun input =>
  match input with
  | .null => .ok ()
  | _ =>
    if jsTypeof input == "object" then
      match v (getProp input name) with
      | .ok _ => .ok ()
      | .error e =>
        .error ⟨"Invalid property \"" ++ name.render ++ "\": " ++ e.message⟩
    else .ok ()

/-- The element loop of a compiled `item` rule: apply the sub-validator to
every element in index order, rewrapping the first failure with its index and
aborting the rest. -/
def itemLoop (v : Validator) (xs : List JSValue) (i : Nat) : Except ValErr Unit :=
  match xs with
  | [] => .ok ()
  | x :: rest =>
    match v x with
    | .error e => .error ⟨"Invalid item [" ++ toString i ++ "]: " ++ e.message⟩
    | .ok _ => itemLoop v rest (i + 1)

/-- The run-time behaviour of a compiled `item` rule: only acts on arrays. -/
def itemRun (v : Validator) : Validator := fun input =>
  match input with
  | .arr xs => itemLoop v xs 0
  | _ => .ok ()

/-- Try alternative validators in order: `none` when one succeeds (and the
rest are not evaluated), otherwise the collected failure messages in order
(the try/push loop shared by `any` and `union` at run time). -/
def collectAlternatives (vs : List Validator) (input : JSValue) : Option (List String) :=
  match vs with
  | [] => some []
  | v :: rest =>
    match v input with
    | .ok _ => none
    | .error e => (collectAlternatives rest input).map (fun es => e.message :: es)

/-- Number the messages `i. m` (1-based) and join with `, ` (the aggregation
of a failing `any` node). -/
def joinNumbered (errs : List String) (i : Nat) : String :=
  match errs with
  | [] => ""
  | [e] => toString i ++ ". " ++ e
  | e :: rest => toString i ++ ". " ++ e ++ ", " ++ joinNumbered rest (i + 1)

/-- The run-time behaviour of a compiled `any` node: first success wins; when
every child throws, a single raw message if exactly one child was compiled,
else the numbered aggregate. -/
def anyRun (vs : List Validator) : Validator := fun input =>
  match collectAlternatives vs input with
  | none => .ok ()
  | some errs =>
    match errs with
    | [e] => .error ⟨e⟩
    | _ => .error ⟨"not eligible: (" ++ joinNumbered errs 1 ++ ")"⟩

/-- Number the messages `Ri. m` (1-based) and join with `; ` (the aggregation
of a failing `union` node). -/
def joinNumberedR (errs : List String) (i : Nat) : String :=
  match errs with
  | [] => ""
  | [e] => "R" ++ toString i ++ ". " ++ e
  | e :: rest => "R" ++ toString i ++ ". " ++ e ++ "; " ++ joinNumberedR rest (i + 1)

/-- Join with `,` and then replace the first comma by `, ` — the source
renders the supported kinds via `toString().replace(',', ', ')`, which only
substitutes the first occurrence. -/
def replaceFirstComma (cs : List Char) : List Char :=
  match cs with
  | [] => []
  | ',' :: rest => ',' :: ' ' :: rest
  | c :: rest => c :: replaceFirstComma rest

/-- The `supportTypes.toString().replace` rendering from the source. -/
def renderSupportTypes (types : List String) : String :=
  ⟨replaceFirstComma (String.intercalate "," types).data⟩

/-- The run-time behaviour of a compiled `union` node: skip `undefined` and
`null`; select the candidate branches (exact kind match, plus the `date`
branch for a date-parseable string input); throw the mismatch message when no
branch qualifies; otherwise try the candidates in declaration order and
aggregate all failures. -/
def unionRun (tv : List (String × Validator)) (mm : Option String) : Validator := fun input =>
  match input with
  | .undef => .ok ()
  | .null => .ok ()
  | _ =>
    let inputType := getInputType input
    let candidates := tv.filterMap (fun p =>
      if p.1 == inputType then some p.2
      else if p.1 == "date" && inputType == "string" &&
          !(coerceDateValue input).isNaN then some p.2
      else none)
    if candidates.isEmpty then
      .error ⟨messageOr mm
        ("Unexpected type: can be \x27" ++ renderSupportTypes (tv.map Prod.fst) ++
          "\x27 but found \x27" ++ inputType ++ "\x27")⟩
    else
      match collectAlternatives candidates input with
      | none => .ok ()
      | some errs =>
        match errs with
        | [e] => .error ⟨e⟩
        | _ => .error ⟨"No rule matched: [" ++ joinNumberedR errs 1 ++ "]"⟩

/-- The kinds accepted at the top level (`new Schema(rule)`), and equally the
sub-rule kinds of `prop` and `item`. -/
def topLevelKinds : List String :=
  ["need", "object", "string", "number", "array", "boolean", "date", "union"]

/-- The sub-rule kinds accepted by `need` (no nested `need`). -/
def needSubKinds : List String :=
  ["object", "string", "number", "array", "boolean", "date", "union"]

/-- The child-kind whitelist of each primitive container (`objectRule`,
`stringRule`, `numberRule`, `arrayRule`, `booleanRule`, `dateRule`). -/
def primWhitelist : PrimKind → List String
  | .object => ["prop", "mismatch"]
  | .string => ["equal", "min", "max", "pattern", "any", "mismatch"]
  | .number => ["equal", "min", "max", "less", "more", "range", "any", "mismatch"]
  | .boolean => ["equal", "mismatch"]
  | .date => ["equal", "begin", "end", "before", "after", "between", "any", "mismatch"]
  | .array => ["min", "max", "prop", "item", "mismatch"]

/-- The child-kind whitelist an `any` node uses, keyed by its parent
container's type string. -/
def anyWhitelist (t : String) : List String :=
  if t == "string" then ["equal", "min", "max", "pattern"]
  else if t == "number" then ["equal", "min", "max", "less", "more", "range"]
  else if t == "boolean" then ["equal"]
  else if t == "date" then ["equal", "begin", "end", "before", "after", "between"]
  else []

/-- The rule kinds a `union` node tolerates (the `UNION` map keys). -/
def unionKinds : List String :=
  ["object", "string", "number", "array", "boolean", "date", "mismatch"]

/-- The `forEach` membership check of `unionRule`: every child must be a
primitive container or a `mismatch` (note the unquoted message, as in the
source). -/
def unionCheckKinds (rs : List Rule) : Except SchemaErr Unit :=
  match rs with
  | [] => .ok ()
  | r :: rest =>
    if !(unionKinds.contains r.type) then .error ⟨"Unexpected rule: " ++ r.type⟩
    else unionCheckKinds rest

/-- Insert or overwrite one key of the insertion-ordered `typeValidator`
map: a repeated kind keeps its first position but takes the latest
validator. -/
def upsertValidator (tv : List (String × Validator)) (key : String) (v : Validator) :
    List (String × Validator) :=
  if (tv.find? (fun p => p.1 == key)).isSome then
    tv.map (fun p => if p.1 == key then (p.1, v) else p)
  else tv ++ [(key, v)]

/-- The dispatch maker of a leaf rule (every non-recursive kind); the
recursive kinds are handled in the mutual block below.  `RULES.mismatch` is
`null` in the source, and calling it would crash; that lookup is unreachable
(every call site filters `mismatch` children first), and is mapped to a
schema error here. -/
def leafMaker (rule : Rule) (parentRule : Option Rule) : Except SchemaErr Validator :=
  match rule with
  | .mismatch _ => .error ⟨"mismatch rule has no maker"⟩
  | .equal v m => equalRule v m parentRule
  | .min v m => minRule v m parentRule
  | .max v m => maxRule v m parentRule
  | .less v m => lessRule v m parentRule
  | .more v m => moreRule v m parentRule
  | .before v m => beforeRule v m
  | .after v m => afterRule v m
  | .begin v m => beginRule v m
  | .endR v m => endRule v m
  | .range a b m => rangeRule a b m
  | .between a b m => betweenRule a b m
  | _ => .error ⟨"not a leaf rule"⟩

mutual

/-- The `createValidator` entry: reject a rule whose kind is outside the caller's
whitelist, then dispatch to the maker for its kind (the `RULES` table). -/
def createValidator (rule : Rule) (availableRules : List String)
    (parentRule : Option Rule) : Except SchemaErr Validator :=
  if (availableRules.find? (fun r => r == rule.type)).isNone then
    .error ⟨"Unexpected rule: \x27" ++ rule.type ++ "\x27"⟩
  else ruleMaker rule parentRule
termination_by (sizeOf rule, 1)

/-- The `RULES` dispatch table: the maker for each rule kind. -/
def ruleMaker (rule : Rule) (parentRule : Option Rule) : Except SchemaErr Validator :=
  match rule with
  | .any rs => anyRule rs parentRule
  | .need r m => needRule r m
  | .prop n r => propRule n r
  | .item r => itemRule r
  | .prim k rs => createPrimitiveRule k rs (primWhitelist k)
  | .union rs => unionRule rs
  | r => leafMaker r parentRule
termination_by (sizeOf rule, 0)

/-- The `createSubValidators` loop: compile a container's children in order,
accumulating their validators, recording the last `mismatch` child's message
(checked against the whitelist but compiled to no validator), and wrapping
any failure with the container kind and 1-based child position.  Returns the
accumulated validators and the final mismatch message after the source's
`|| null` truthiness normalisation. -/
def createSubValidators (parentRule : Rule) (subRules : List Rule) (idx : Nat)
    (availableRules : List String) (acc : List Validator) (mm : Option String) :
    Except SchemaErr (List Validator × Option String) :=
  match subRules with
  | [] => .ok (acc, if strTruthy mm then mm else none)
  | r :: rest =>
    if r.type == "mismatch" then
      if (availableRules.find? (fun ar => ar == r.type)).isNone then
        .error ⟨"Invalid \"" ++ parentRule.type ++ "\" rule (sub rule " ++
          toString (idx + 1) ++ "):\n    > Unexpected rule: \x27" ++ r.type ++ "\x27"⟩
      else
        createSubValidators parentRule rest (idx + 1) availableRules acc r.messageField
    else
      match createValidator r availableRules (some parentRule) with
      | .error e =>
        .error ⟨"Invalid \"" ++ parentRule.type ++ "\" rule (sub rule " ++
          toString (idx + 1) ++ "):\n    > " ++ e.message⟩
      | .ok v =>
        createSubValidators parentRule rest (idx + 1) availableRules (acc ++ [v]) mm
termination_by (sizeOf subRules, 1)

/-- The `createPrimitiveRule` maker: compile the children against the container's
whitelist and close over them together with the mismatch override. -/
def createPrimitiveRule (k : PrimKind) (rs : List Rule) (allowed : List String) :
    Except SchemaErr Validator :=
  match createSubValidators (Rule.prim k rs) rs 0 allowed [] none with
  | .error e => .error e
  | .ok (validators, mm) => .ok (primRun k validators mm)
termination_by (sizeOf rs, 2)

/-- The `anyRule` maker: compile the children against the whitelist of the parent
container's kind (none are compiled under other parents), require at least
two compiled alternatives, and close over them with OR semantics. -/
def anyRule (rs : List Rule) (parentRule : Option Rule) : Except SchemaErr Validator :=
  match parentRule with
  | none => .error ⟨"Invalid \"any\" rule: at least provide two sub rules"⟩
  | some p =>
    if p.type == "string" || p.type == "number" || p.type == "boolean" ||
        p.type == "date" then
      match createSubValidators p rs 0 (anyWhitelist p.type) [] none with
      | .error e => .error e
      | .ok (vs, _) =>
        if vs.length < 2 then
          .error ⟨"Invalid \"any\" rule: at least provide two sub rules"⟩
        else .ok (anyRun vs)
    else .error ⟨"Invalid \"any\" rule: at least provide two sub rules"⟩
termination_by (sizeOf rs, 2)

/-- The `needRule` maker: compile the optional sub-rule (no nested `need` allowed) and
close over it with the mandatory-value semantics. -/
def needRule (rule : Option Rule) (message : Option String) : Except SchemaErr Validator :=
  match rule with
  | none => .ok (needRun none message)
  | some r =>
    match createValidator r needSubKinds none with
    | .error e => .error ⟨"Invalid \"need\" rule:\n    > " ++ e.message⟩
    | .ok v => .ok (needRun (some v) message)
termination_by (sizeOf rule, 2)

/-- The `propRule` maker: reject a falsy name other than the index `0`, compile the
sub-rule, and close over it with the property-extraction semantics. -/
def propRule (name : PropName) (rule : Rule) : Except SchemaErr Validator :=
  if name.isFalsy && !(name == PropName.num (JNum.fin 0)) then
    .error ⟨"Invalid \"prop\" rule: \"name\" must be a valid key or index"⟩
  else
    match createValidator rule topLevelKinds none with
    | .error e =>
      .error ⟨"Invalid \"prop\" rule of \"" ++ name.render ++ "\":\n    > " ++ e.message⟩
    | .ok v => .ok (propRun name v)
termination_by (sizeOf rule, 2)

/-- The `itemRule` maker: compile the sub-rule and close over it with the
element-iteration semantics. -/
def itemRule (rule : Rule) : Except SchemaErr Validator :=
  match createValidator rule topLevelKinds none with
  | .error e => .error ⟨"Invalid \"item\" rule:\n    > " ++ e.message⟩
  | .ok v => .ok (itemRun v)
termination_by (sizeOf rule, 2)

/-- The `filter`/`forEach` building of `unionRule`'s kind-to-validator map:
every primitive child is compiled with its own container whitelist and
upserted under its kind. -/
def unionBuild (rs : List Rule) (tv : List (String × Validator)) :
    Except SchemaErr (List (String × Validator)) :=
  match rs with
  | [] => .ok tv
  | r :: rest =>
    match r with
    | .prim k rrs =>
      match createPrimitiveRule k rrs (primWhitelist k) with
      | .error e => .error e
      | .ok v => unionBuild rest (upsertValidator tv k.name v)
    | _ => unionBuild rest tv
termination_by (sizeOf rs, 2)

/-- The `unionRule` maker: check every child's kind, compile the primitive children
into the kind map, record the first `mismatch` child's message, require at
least two distinct kinds, and close over the map with type-dispatching OR
semantics. -/
def unionRule (rs : List Rule) : Except SchemaErr Validator :=
  match unionCheckKinds rs with
  | .error e => .error ⟨"Invalid \"union\" rule:\n    > " ++ e.message⟩
  | .ok _ =>
    match unionBuild rs [] with
    | .error e => .error ⟨"Invalid \"union\" rule:\n    > " ++ e.message⟩
    | .ok tv =>
      let mm :=
        match rs.find? (fun r => r.type == "mismatch") with
        | some r => r.messageField
        | none => none
      if tv.length < 2 then
        .error ⟨"Invalid \"union\" rule, at least provide two different types"⟩
      else .ok (unionRun tv mm)
termination_by (sizeOf rs, 3)

end

/-- The compilation performed by the `Schema` class constructor: the root
rule must be a `need`, a primitive container or a `union`. -/
def schemaCompile (rule : Rule) : Except SchemaErr Validator :=
  createValidator rule topLevelKinds none

/-- Whether compilation of a rule (via the `Schema` entry point) succeeds,
i.e. raises no `SchemaError`. -/
def compiles (r : Rule) : Bool :=
  match schemaCompile r with
  | .ok _ => true
  | .error _ => false

/-- The outcome of validating `x` against the compiled validator of `r`:
`none` when compilation itself fails. -/
def runCase (r : Rule) (x : JSValue) : Option (Except ValErr Unit) :=
  match schemaCompile r with
  | .ok v => some (v x)
  | .error _ => none

/-- Whether a compilation result is a success. -/
def isOkE (c : Except SchemaErr Validator) : Bool :=
  match c with
  | .ok _ => true
  | .error _ => false

/-- The outcome of applying the validator of a compilation result to an
input (`none` when the compilation failed). -/
def appRun (c : Except SchemaErr Validator) (x : JSValue) : Option (Except ValErr Unit) :=
  match c with
  | .ok v => some (v x)
  | .error _ => none

/-- One message occurs inside another, as a contiguous substring. -/
def mentions (big small : String) : Prop :=
  ∃ a b : String, big = a ++ small ++ b

/-- The outcome of validating `x` against one child of an `any` node whose
parent container is `parent` (the compilation an `any` node performs for each
of its children). -/
def childRun (parent : Rule) (r : Rule) (x : JSValue) : Option (Except ValErr Unit) :=
  appRun (createValidator r (anyWhitelist parent.type) (some parent)) x

/-- The mismatch override message a primitive container's compilation
extracts from its child list (`none` when compilation fails or no truthy
override is present). -/
def mismatchMessageOf (k : PrimKind) (rs : List Rule) : Option String :=
  match createSubValidators (Rule.prim k rs) rs 0 (primWhitelist k) [] none with
  | .ok (_, mm) => mm
  | .error _ => none

/-- The outcome of running a primitive container's compiled child validators
(the AND-chain, type check already passed) against an input. -/
def childrenRunOf (k : PrimKind) (rs : List Rule) (x : JSValue) :
    Option (Except ValErr Unit) :=
  match createSubValidators (Rule.prim k rs) rs 0 (primWhitelist k) [] none with
  | .ok (vs, _) => some (validate vs x)
  | .error _ => none

/-- The message a failing `need` rule throws: the truthy custom message when
present, else the default. -/
def needMessageOf (m : Option String) : String :=
  messageOr m "value is need"

/-! Helper lemmas about the compilation pipeline. -/

theorem schemaCompile_prim (k : PrimKind) (rs : List Rule) :
    schemaCompile (Rule.prim k rs) = createPrimitiveRule k rs (primWhitelist k) := by
  cases k <;>
    simp [schemaCompile, createValidator, ruleMaker, Rule.type, PrimKind.name, topLevelKinds]

theorem schemaCompile_need (r : Option Rule) (m : Option String) :
    schemaCompile (Rule.need r m) = needRule r m := by
  simp [schemaCompile, createValidator, ruleMaker, Rule.type, topLevelKinds]

theorem prim_ok_run (k : PrimKind) (rs : List Rule) (vs : List Validator)
    (mm : Option String)
    (h : createSubValidators (Rule.prim k rs) rs 0 (primWhitelist k) [] none =
      .ok (vs, mm)) (x : JSValue) :
    runCase (Rule.prim k rs) x = some (primRun k vs mm x) := by
  simp [runCase, schemaCompile_prim, createPrimitiveRule, h]

theorem prim_compiles_ok (k : PrimKind) (rs : List Rule)
    (h : compiles (Rule.prim k rs) = true) :
    ∃ vs mm, createSubValidators (Rule.prim k rs) rs 0 (primWhitelist k) [] none =
      .ok (vs, mm) := by
  rcases hcsv : createSubValidators (Rule.prim k rs) rs 0 (primWhitelist k) [] none with
    e | ⟨vs, mm⟩
  · simp [compiles, schemaCompile_prim, createPrimitiveRule, hcsv] at h
  · exact ⟨vs, mm, rfl⟩

theorem prim_mm_of (k : PrimKind) (rs : List Rule) (vs : List Validator)
    (mm : Option String)
    (h : createSubValidators (Rule.prim k rs) rs 0 (primWhitelist k) [] none =
      .ok (vs, mm)) :
    mismatchMessageOf k rs = mm := by
  simp [mismatchMessageOf, h]

theorem prim_children_of (k : PrimKind) (rs : List Rule) (vs : List Validator)
    (mm : Option String)
    (h : createSubValidators (Rule.prim k rs) rs 0 (primWhitelist k) [] none =
      .ok (vs, mm)) (x : JSValue) :
    childrenRunOf k rs x = some (validate vs x) := by
  simp [childrenRunOf, h]

/-- C3.  Union dispatch: the compiled validator of `union(string(), number())`
accepts the string `"5"` (via the string branch) and the number `5` (via the
number branch), and rejects the boolean `true` with a `ValidationError` whose
message lists the kinds `string, number`. -/
theorem c3_union_dispatch :
    runCase (Rule.union [Rule.prim .string [], Rule.prim .number []])
        (.str "5") = some (.ok ())
    ∧ runCase (Rule.union [Rule.prim .string [], Rule.prim .number []])
        (.num (.fin 5)) = some (.ok ())
    ∧ runCase (Rule.union [Rule.prim .string [], Rule.prim .number []])
        (.bool true) =
      some (.error ⟨"Unexpected type: can be \x27string, number\x27 but found \x27boolean\x27"⟩)
    ∧ mentions "Unexpected type: can be \x27string, number\x27 but found \x27boolean\x27"
        "string, number" := by
  refine ⟨?_, ?_, ?_, "Unexpected type: can be \x27", "\x27 but found \x27boolean\x27", rfl⟩ <;>
    (simp [runCase, schemaCompile, createValidator, ruleMaker, unionRule, unionCheckKinds,
      unionBuild, createPrimitiveRule, createSubValidators, Rule.type, PrimKind.name,
      topLevelKinds, primWhitelist, unionKinds, upsertValidator]; rfl)

/-- C5.  Date-container string coercion: `date(between('2019-01-01','2020-01-01'))`
accepts the string `"2019-06-15"` (coerced to a date) and rejects the string
`"2021-01-01"` with the between-range message; in general a `date` container
given a string input first attempts date coercion, a parse failure is reported
exactly as a type mismatch, and a parse success substitutes the coerced date
for all descendant checks. -/
theorem c5_date_string_coercion :
    runCase (Rule.prim .date [Rule.between (.str "2019-01-01") (.str "2020-01-01") none])
        (.str "2019-06-15") = some (.ok ())
    ∧ runCase (Rule.prim .date [Rule.between (.str "2019-01-01") (.str "2020-01-01") none])
        (.str "2021-01-01") =
      some (.error ⟨"Date must between 2019-01-01 and 2020-01-01"⟩)
    ∧ (∀ rs s, compiles (Rule.prim .date rs) = true → (parseDate s).isNaN = true →
        runCase (Rule.prim .date rs) (.str s) =
          some (.error (mismatchErr .date (mismatchMessageOf .date rs) "string")))
    ∧ (∀ rs s t, compiles (Rule.prim .date rs) = true → parseDate s = JNum.fin t →
        runCase (Rule.prim .date rs) (.str s) =
          childrenRunOf .date rs (.date (JNum.fin t))) := by
  refine ⟨?_, ?_, ?_, ?_⟩
  · simp [runCase, schemaCompile, createValidator, ruleMaker, createPrimitiveRule,
      createSubValidators, Rule.type, PrimKind.name, topLevelKinds, primWhitelist,
      leafMaker, betweenRule]
    rfl
  · simp [runCase, schemaCompile, createValidator, ruleMaker, createPrimitiveRule,
      createSubValidators, Rule.type, PrimKind.name, topLevelKinds, primWhitelist,
      leafMaker, betweenRule]
    rfl
  · intro rs s hc hnan
    obtain ⟨vs, mm, hcsv⟩ := prim_compiles_ok .date rs hc
    rw [prim_ok_run .date rs vs mm hcsv, prim_mm_of .date rs vs mm hcsv]
    simp [primRun, getInputType, jsTypeof, hnan]
  · intro rs s t hc hparse
    obtain ⟨vs, mm, hcsv⟩ := prim_compiles_ok .date rs hc
    rw [prim_ok_run .date rs vs mm hcsv, prim_children_of .date rs vs mm hcsv]
    simp [primRun, getInputType, jsTypeof, hparse, JNum.isNaN]

/-- C5 witness: the general coercion clauses applied at concrete inputs. -/
theorem c5_witness :
    runCase (Rule.prim .date []) (.str "not a date") =
      some (.error (mismatchErr .date (mismatchMessageOf .date []) "string"))
    ∧ runCase (Rule.prim .date []) (.str "2019-06-15") =
      childrenRunOf .date [] (.date (JNum.fin ((18062 * 86400000 : Nat) : ℚ))) := by
  constructor
  · exact c5_date_string_coercion.2.2.1 [] "not a date"
      (by simp [compiles, schemaCompile_prim, createPrimitiveRule, createSubValidators])
      (by decide)
  · exact c5_date_string_coercion.2.2.2 [] "2019-06-15" ((18062 * 86400000 : Nat) : ℚ)
      (by simp [compiles, schemaCompile_prim, createPrimitiveRule, createSubValidators])
      (by decide)

/-- C6 counterexample: the compiled validator of the number container
`number()` accepts `Infinity` (the claim asserts every non-finite number,
including `Infinity`, is rejected like a type mismatch). -/
theorem c6_counterexample :
    runCase (Rule.prim .number []) (.num .inf) = some (.ok ()) := by
  simp [runCase, schemaCompile, createValidator, ruleMaker, createPrimitiveRule,
    createSubValidators, Rule.type, PrimKind.name, topLevelKinds, primWhitelist]
  rfl

/-- C6 (amended).  For every number container, an input of `NaN` is rejected
exactly like a type mismatch (the container's mismatch override message, when
present, is used), while `Infinity` and `-Infinity` pass the container's type
check and are handed to the child checks; every date container rejects a
`Date` whose timestamp is NaN as a type mismatch. -/
theorem c6_nonfinite_amended :
    (∀ rs, compiles (Rule.prim .number rs) = true →
      runCase (Rule.prim .number rs) (.num .nan) =
        some (.error (mismatchErr .number (mismatchMessageOf .number rs) "invalid number"))
      ∧ runCase (Rule.prim .number rs) (.num .inf) =
        childrenRunOf .number rs (.num .inf)
      ∧ runCase (Rule.prim .number rs) (.num .negInf) =
        childrenRunOf .number rs (.num .negInf))
    ∧ (∀ rs, compiles (Rule.prim .date rs) = true →
      runCase (Rule.prim .date rs) (.date .nan) =
        some (.error (mismatchErr .date (mismatchMessageOf .date rs) "invalid date"))) := by
  constructor
  · intro rs hc
    obtain ⟨vs, mm, hcsv⟩ := prim_compiles_ok .number rs hc
    refine ⟨?_, ?_, ?_⟩ <;>
      rw [prim_ok_run .number rs vs mm hcsv] <;>
      simp [prim_mm_of .number rs vs mm hcsv, prim_children_of .number rs vs mm hcsv,
        primRun, getInputType, jsTypeof, PrimKind.name, JNum.isNaN]
  · intro rs hc
    obtain ⟨vs, mm, hcsv⟩ := prim_compiles_ok .date rs hc
    rw [prim_ok_run .date rs vs mm hcsv]
    simp [prim_mm_of .date rs vs mm hcsv, primRun, getInputType, jsTypeof,
      PrimKind.name, JNum.isNaN]

/-- C6 witness: the amended clauses applied to empty containers. -/
theorem c6_witness :
    runCase (Rule.prim .number []) (.num .nan) =
      some (.error (mismatchErr .number (mismatchMessageOf .number []) "invalid number"))
    ∧ runCase (Rule.prim .date []) (.date .nan) =
      some (.error (mismatchErr .date (mismatchMessageOf .date []) "invalid date")) := by
  constructor
  · exact (c6_nonfinite_amended.1 []
      (by simp [compiles, schemaCompile_prim, createPrimitiveRule, createSubValidators])).1
  · exact c6_nonfinite_amended.2 []
      (by simp [compiles, schemaCompile_prim, createPrimitiveRule, createSubValidators])

/-- C8 counterexample: a `need` rule without a custom message rejects
`undefined` with the default message `value is need`, not `value is
required` as the claim states. -/
theorem c8_counterexample :
    runCase (Rule.need none none) JSValue.undef = some (.error ⟨"value is need"⟩)
    ∧ "value is need" ≠ "value is required" := by
  constructor
  · simp [runCase, schemaCompile_need, needRule, needRun, messageOr]
  · decide

/-- C8 (amended).  When a compiled `need` rule rejects an `undefined` or
`null` input it throws the message `needMessageOf m`: the default
`value is need` when no custom message was supplied (or when the supplied
message is the empty string, which JavaScript truthiness ignores), and the
custom message verbatim otherwise. -/
theorem c8_need_default_message :
    (∀ r m x, compiles (Rule.need r m) = true → (x = JSValue.undef ∨ x = JSValue.null) →
      runCase (Rule.need r m) x = some (.error ⟨needMessageOf m⟩))
    ∧ needMessageOf none = "value is need"
    ∧ (∀ s, s ≠ "" → needMessageOf (some s) = s) := by
  refine ⟨?_, rfl, ?_⟩
  · intro r m x hc hx
    match r with
    | none =>
      rcases hx with rfl | rfl <;>
        simp [runCase, schemaCompile_need, needRule, needRun, needMessageOf]
    | some rr =>
      rcases hsub : createValidator rr needSubKinds none with e | v
      · simp [compiles, schemaCompile_need, needRule, hsub] at hc
      · rcases hx with rfl | rfl <;>
          simp [runCase, schemaCompile_need, needRule, hsub, needRun, needMessageOf]
  · intro s hs
    simp [needMessageOf, messageOr, hs]

/-- C8 witness: the amended clause applied to a concrete `need` rule with a
custom message, at `null`. -/
theorem c8_witness :
    runCase (Rule.need none (some "give me a value")) JSValue.null =
      some (.error ⟨needMessageOf (some "give me a value")⟩) := by
  exact c8_need_default_message.1 none (some "give me a value") JSValue.null
    (by simp [compiles, schemaCompile_need, needRule]) (Or.inr rfl)

/-- A number is NaN exactly when it is the NaN constructor. -/
theorem JNum.isNaN_true_iff (n : JNum) : n.isNaN = true ↔ n = JNum.nan := by
  cases n <;> simp [JNum.isNaN]

/-- C1.  Optionality and required strictness: a compiled primitive container
never throws on `undefined` or `null`; a compiled `need` rule with a sub-rule
always throws on `undefined` and `null`; a compiled bare `need` rule throws
exactly on `undefined` and `null`. -/
theorem c1_optionality_need_strictness :
    (∀ (k : PrimKind) (rs : List Rule), compiles (Rule.prim k rs) = true →
      runCase (Rule.prim k rs) JSValue.undef = some (.ok ())
      ∧ runCase (Rule.prim k rs) JSValue.null = some (.ok ()))
    ∧ (∀ (R : Rule) (m : Option String), compiles (Rule.need (some R) m) = true →
      (∃ e, runCase (Rule.need (some R) m) JSValue.undef = some (.error e))
      ∧ (∃ e, runCase (Rule.need (some R) m) JSValue.null = some (.error e)))
    ∧ (∀ (m : Option String) (x : JSValue),
      (∃ e, runCase (Rule.need none m) x = some (.error e)) ↔
        (x = JSValue.undef ∨ x = JSValue.null)) := by
  refine ⟨?_, ?_, ?_⟩
  · intro k rs hc
    obtain ⟨vs, mm, hcsv⟩ := prim_compiles_ok k rs hc
    rw [prim_ok_run k rs vs mm hcsv, prim_ok_run k rs vs mm hcsv]
    simp [primRun]
  · intro R m hc
    rcases hsub : createValidator R needSubKinds none with e | v
    · simp [compiles, schemaCompile_need, needRule, hsub] at hc
    · exact ⟨⟨⟨messageOr m "value is need"⟩,
          by simp [runCase, schemaCompile_need, needRule, hsub, needRun]⟩,
        ⟨⟨messageOr m "value is need"⟩,
          by simp [runCase, schemaCompile_need, needRule, hsub, needRun]⟩⟩
  · intro m x
    cases x <;>
      simp [runCase, schemaCompile_need, needRule, needRun]

/-- C1 witness: the three clauses applied at concrete rules and inputs. -/
theorem c1_witness :
    (runCase (Rule.prim .string []) JSValue.undef = some (.ok ())
      ∧ runCase (Rule.prim .string []) JSValue.null = some (.ok ()))
    ∧ (∃ e, runCase (Rule.need (some (Rule.prim .string [])) none) JSValue.undef =
        some (.error e))
    ∧ ((∃ e, runCase (Rule.need none none) JSValue.null = some (.error e)) ∧
        ¬ ∃ e, runCase (Rule.need none none) (.bool true) = some (.error e)) := by
  refine ⟨c1_optionality_need_strictness.1 .string []
      (by simp [compiles, schemaCompile_prim, createPrimitiveRule, createSubValidators]),
    (c1_optionality_need_strictness.2.1 (Rule.prim .string []) none
      (by simp [compiles, schemaCompile_need, needRule, createValidator, ruleMaker,
        createPrimitiveRule, createSubValidators, Rule.type, PrimKind.name,
        needSubKinds, primWhitelist])).1,
    ((c1_optionality_need_strictness.2.2 none JSValue.null).mpr (Or.inr rfl)),
    fun h => by
      have := (c1_optionality_need_strictness.2.2 none (.bool true)).mp h
      simp at this⟩

/-- C9.  Empty containers accept their whole kind: each of the six primitive
containers with no children compiles, accepts `undefined` and `null`, accepts
every input whose basic kind matches (given a valid date timestamp and a
non-NaN number), and throws only on a kind mismatch, an invalid date, or a
NaN number. -/
theorem c9_empty_containers (k : PrimKind) :
    compiles (Rule.prim k []) = true
    ∧ runCase (Rule.prim k []) JSValue.undef = some (.ok ())
    ∧ runCase (Rule.prim k []) JSValue.null = some (.ok ())
    ∧ (∀ x, getInputType x = k.name →
        (∀ t, x = JSValue.date t → t.isNaN = false) →
        (∀ n, x = JSValue.num n → n.isNaN = false) →
        runCase (Rule.prim k []) x = some (.ok ()))
    ∧ (∀ x e, runCase (Rule.prim k []) x = some (.error e) →
        getInputType x ≠ k.name
        ∨ (∃ t, x = JSValue.date t ∧ t.isNaN = true)
        ∨ x = JSValue.num JNum.nan) := by
  have hcsv : createSubValidators (Rule.prim k []) [] 0 (primWhitelist k) [] none =
      .ok ([], none) := by
    simp [createSubValidators, strTruthy]
  refine ⟨?_, ?_, ?_, ?_, ?_⟩
  · simp [compiles, schemaCompile_prim, createPrimitiveRule, hcsv]
  · rw [prim_ok_run k [] [] none hcsv]; simp [primRun]
  · rw [prim_ok_run k [] [] none hcsv]; simp [primRun]
  · intro x hk hd hn
    rw [prim_ok_run k [] [] none hcsv]
    cases k <;> cases x <;>
      simp_all [primRun, getInputType, jsTypeof, PrimKind.name, validate]
  · intro x e herr
    rw [prim_ok_run k [] [] none hcsv] at herr
    cases k <;> cases x <;>
      simp_all [primRun, getInputType, jsTypeof, PrimKind.name, validate,
        JNum.isNaN_true_iff] <;>
      (split at herr <;> simp_all)

/-- C9 witness: the acceptance clause applied at a concrete matching input,
and the rejection clause at a concrete mismatching one. -/
theorem c9_witness :
    runCase (Rule.prim .boolean []) (.bool true) = some (.ok ())
    ∧ (getInputType (.str "x") ≠ PrimKind.name .number
        ∨ (∃ t, JSValue.str "x" = JSValue.date t ∧ t.isNaN = true)
        ∨ JSValue.str "x" = JSValue.num JNum.nan) := by
  constructor
  · exact (c9_empty_containers .boolean).2.2.2.1 (.bool true) rfl
      (fun t ht => by simp at ht) (fun n hn => by simp at hn)
  · exact (c9_empty_containers .number).2.2.2.2 (.str "x")
      ⟨"Unexpected type: require \x27number\x27 but found \x27string\x27"⟩
      (by simp [runCase, schemaCompile_prim, createPrimitiveRule, createSubValidators,
        primRun, getInputType, jsTypeof, PrimKind.name, mismatchErr, messageOr,
        strTruthy])

/-- JavaScript `<` is irreflexive on non-NaN numbers. -/
theorem JNum.lt_self (v : JNum) (h : v.isNaN = false) : JNum.lt v v = false := by
  cases v <;> simp_all [JNum.lt, JNum.isNaN]

/-- JavaScript `>=` holds reflexively on non-NaN numbers. -/
theorem JNum.ge_self (v : JNum) (h : v.isNaN = false) : JNum.ge v v = true := by
  cases v <;> simp_all [JNum.ge, JNum.le, JNum.lt, JNum.isNaN]

/-- JavaScript `<=` holds reflexively on non-NaN numbers. -/
theorem JNum.le_self (v : JNum) (h : v.isNaN = false) : JNum.le v v = true := by
  cases v <;> simp_all [JNum.le, JNum.lt, JNum.isNaN]

/-- NaN is never less than anything. -/
theorem JNum.lt_nan_left (v : JNum) : JNum.lt .nan v = false := by
  cases v <;> rfl

/-- Nothing is ever less than NaN. -/
theorem JNum.lt_nan_right (v : JNum) : JNum.lt v .nan = false := by
  cases v <;> rfl

/-- NaN is NaN. -/
theorem JNum.isNaN_nan : JNum.nan.isNaN = true := rfl

/-- C7.  Value-comparator semantics: under a `number` container, compiled
`min`/`max`/`less`/`more` checks compare the input value itself (and always
fail on NaN); under a `string` or `array` container, `min`/`max` compare the
input's length; `min`/`max` are inclusive (the bound itself passes) while
`less`/`more` are exclusive (the bound itself fails). -/
theorem c7_value_comparators (v : JNum) (m : Option String) (prs : List Rule)
    (hv : v.isNaN = false) :
    (∀ q : JNum,
      appRun (minRule v m (some (Rule.prim .number prs))) (.num q) =
        some (if JNum.lt q v || q.isNaN then
          .error (invalidValueMessage m v.render "value must be greater or equal to")
        else .ok ())
      ∧ appRun (maxRule v m (some (Rule.prim .number prs))) (.num q) =
        some (if JNum.gt q v || q.isNaN then
          .error (invalidValueMessage m v.render "value must be less or equal to")
        else .ok ())
      ∧ appRun (lessRule v m (some (Rule.prim .number prs))) (.num q) =
        some (if JNum.ge q v || q.isNaN then
          .error (invalidValueMessage m v.render "value must be less than")
        else .ok ())
      ∧ appRun (moreRule v m (some (Rule.prim .number prs))) (.num q) =
        some (if JNum.le q v || q.isNaN then
          .error (invalidValueMessage m v.render "value must be greater than")
        else .ok ()))
    ∧ (appRun (minRule v m (some (Rule.prim .number prs))) (.num v) = some (.ok ())
      ∧ appRun (maxRule v m (some (Rule.prim .number prs))) (.num v) = some (.ok ())
      ∧ appRun (lessRule v m (some (Rule.prim .number prs))) (.num v) =
        some (.error (invalidValueMessage m v.render "value must be less than"))
      ∧ appRun (moreRule v m (some (Rule.prim .number prs))) (.num v) =
        some (.error (invalidValueMessage m v.render "value must be greater than")))
    ∧ (appRun (minRule v m (some (Rule.prim .number prs))) (.num .nan) =
        some (.error (invalidValueMessage m v.render "value must be greater or equal to"))
      ∧ appRun (maxRule v m (some (Rule.prim .number prs))) (.num .nan) =
        some (.error (invalidValueMessage m v.render "value must be less or equal to")))
    ∧ (∀ s : String,
      appRun (minRule v m (some (Rule.prim .string prs))) (.str s) =
        some (if JNum.lt (.fin s.length) v then
          .error (invalidValueMessage m v.render "string length must be greater or equal to")
        else .ok ())
      ∧ appRun (maxRule v m (some (Rule.prim .string prs))) (.str s) =
        some (if JNum.gt (.fin s.length) v then
          .error (invalidValueMessage m v.render "string length must be less or equal to")
        else .ok ()))
    ∧ (∀ xs : List JSValue,
      appRun (minRule v m (some (Rule.prim .array prs))) (.arr xs) =
        some (if JNum.lt (.fin xs.length) v then
          .error (invalidValueMessage m v.render "array length must be greater or equal to")
        else .ok ())
      ∧ appRun (maxRule v m (some (Rule.prim .array prs))) (.arr xs) =
        some (if JNum.gt (.fin xs.length) v then
          .error (invalidValueMessage m v.render "array length must be less or equal to")
        else .ok ())) := by
  refine ⟨?_, ?_, ?_, ?_, ?_⟩
  · intro q
    refine ⟨?_, ?_, ?_, ?_⟩ <;>
      simp [minRule, maxRule, lessRule, moreRule, valueRuleBase, hv, appRun,
        parentType, Rule.type, PrimKind.name, inputNum]
  · refine ⟨?_, ?_, ?_, ?_⟩ <;>
      simp [minRule, maxRule, lessRule, moreRule, valueRuleBase, hv, appRun,
        parentType, Rule.type, PrimKind.name, inputNum, JNum.lt_self v hv,
        JNum.ge_self v hv, JNum.le_self v hv, JNum.gt]
  · constructor <;>
      simp [minRule, maxRule, valueRuleBase, hv, appRun, parentType, Rule.type,
        PrimKind.name, inputNum, JNum.gt, JNum.lt_nan_left, JNum.lt_nan_right,
        JNum.isNaN_nan]
  · intro s
    constructor <;>
      simp [minRule, maxRule, valueRuleBase, hv, appRun, parentType, Rule.type,
        PrimKind.name, inputStrLen]
  · intro xs
    constructor <;>
      simp [minRule, maxRule, valueRuleBase, hv, appRun, parentType, Rule.type,
        PrimKind.name, inputArrLen]

/-- C7 witness: the comparator clauses applied at a concrete bound and
concrete inputs. -/
theorem c7_witness :
    appRun (minRule (.fin 3) none (some (Rule.prim .number []))) (.num (.fin 3)) =
      some (.ok ())
    ∧ appRun (lessRule (.fin 3) none (some (Rule.prim .number []))) (.num (.fin 3)) =
      some (.error (invalidValueMessage none (JNum.fin 3).render "value must be less than"))
    ∧ appRun (minRule (.fin 3) none (some (Rule.prim .string []))) (.str "ab") =
      some (if JNum.lt (.fin ("ab".length : ℚ)) (.fin 3) then
        .error (invalidValueMessage none (JNum.fin 3).render
          "string length must be greater or equal to")
      else .ok ()) := by
  exact ⟨(c7_value_comparators (.fin 3) none [] (by decide)).2.1.1,
    (c7_value_comparators (.fin 3) none [] (by decide)).2.1.2.2.1,
    ((c7_value_comparators (.fin 3) none [] (by decide)).2.2.2.1 "ab").1⟩

/-- Searching with an equality predicate finds nothing iff the element is not
contained. -/
theorem find_none_iff (l : List String) (t : String) :
    ((l.find? (fun r => r == t)).isNone = true) ↔ l.contains t = false := by
  induction l with
  | nil => simp
  | cons hd tl ih =>
    by_cases h : hd = t
    · subst h
      simp [List.find?]
    · have hbeq : (hd == t) = false := by simp [h]
      simp [List.find?, hbeq, ih, h, Ne.symm h]

/-- A successfully compiled rule was in the caller's whitelist. -/
theorem createValidator_ok_whitelisted (r : Rule) (allowed : List String)
    (p : Option Rule) (v : Validator)
    (h : createValidator r allowed p = .ok v) :
    allowed.contains r.type = true := by
  cases hc : allowed.contains r.type
  · exfalso
    have hfind : (allowed.find? (fun x => x == r.type)).isNone = true :=
      (find_none_iff allowed r.type).mpr hc
    rw [createValidator] at h
    rw [if_pos hfind] at h
    cases h
  · rfl

/-- Every child of a successful `createSubValidators` run was in the
whitelist (a `mismatch` child is checked against it as well). -/
theorem csv_ok_children (parent : Rule) (allowed : List String) :
    ∀ (rs : List Rule) (idx : Nat) (acc : List Validator) (mm : Option String)
      (res : List Validator × Option String),
      createSubValidators parent rs idx allowed acc mm = .ok res →
      ∀ r ∈ rs, allowed.contains r.type = true := by
  intro rs
  induction rs with
  | nil =>
    intro _ _ _ _ _ r hr
    cases hr
  | cons hd tl ih =>
    intro idx acc mm res h r hr
    rw [createSubValidators] at h
    by_cases hmis : (hd.type == "mismatch") = true
    · cases hfind : (allowed.find? (fun ar => ar == hd.type)).isNone
      · simp only [hmis, hfind] at h
        simp at h
        rcases List.mem_cons.mp hr with rfl | hr'
        · cases hc : allowed.contains r.type
          · rw [(find_none_iff allowed r.type).mpr hc] at hfind
            cases hfind
          · rfl
        · exact ih _ _ _ _ h r hr'
      · simp [hmis, hfind] at h
    · rcases hcv : createValidator hd allowed (some parent) with e | v
      · simp [hmis, hcv] at h
      · simp only [hmis] at h
        simp [hcv] at h
        rcases List.mem_cons.mp hr with rfl | hr'
        · exact createValidator_ok_whitelisted r allowed (some parent) v hcv
        · exact ih _ _ _ _ h r hr'

/-- C2 counterexample: compiling `array(prop(name, subRule))` succeeds (the
claim asserts it raises a `SchemaError`): `prop` is in the array container's
whitelist. -/
theorem c2_counterexample :
    compiles (Rule.prim .array [Rule.prop (.str "a") (Rule.prim .string [])]) = true := by
  simp [compiles, schemaCompile_prim, createPrimitiveRule, createSubValidators,
    createValidator, ruleMaker, propRule, Rule.type, PrimKind.name, primWhitelist, topLevelKinds,
    PropName.isFalsy, strTruthy]

/-- C2 (amended).  The array container's child whitelist is `min`, `max`,
`prop`, `item` (plus `mismatch`): a child of any other kind raises a
`SchemaError` at compile time, while `array(prop(name, subRule))` compiles
successfully. -/
theorem c2_array_child_whitelist :
    (∀ rs r, r ∈ rs → (primWhitelist .array).contains r.type = false →
      compiles (Rule.prim .array rs) = false)
    ∧ compiles (Rule.prim .array [Rule.prop (.str "a") (Rule.prim .string [])]) = true := by
  constructor
  · intro rs r hmem hbad
    cases hc : compiles (Rule.prim .array rs)
    · rfl
    · obtain ⟨vs, mm, hcsv⟩ := prim_compiles_ok .array rs hc
      rw [csv_ok_children (Rule.prim .array rs) (primWhitelist .array) rs 0 [] none
        (vs, mm) hcsv r hmem] at hbad
      cases hbad
  · simp [compiles, schemaCompile_prim, createPrimitiveRule, createSubValidators,
      createValidator, ruleMaker, propRule, Rule.type, PrimKind.name, primWhitelist, topLevelKinds,
      PropName.isFalsy, strTruthy]

/-- C2 witness: an `equal` child (not in the array whitelist) makes the array
container fail to compile. -/
theorem c2_witness :
    compiles (Rule.prim .array [Rule.equal (.num (.fin 1)) none]) = false := by
  exact c2_array_child_whitelist.1 [Rule.equal (.num (.fin 1)) none]
    (Rule.equal (.num (.fin 1)) none) (List.mem_singleton.mpr rfl) (by decide)

/-- A successfully compiled `prop` rule is the property-extraction closure
over a successfully compiled sub-rule. -/
theorem propRule_ok_inv (n : PropName) (r : Rule) (v : Validator)
    (h : propRule n r = .ok v) :
    ∃ w, createValidator r topLevelKinds none = .ok w ∧ v = propRun n w := by
  rw [propRule] at h
  by_cases hb : (n.isFalsy && !(n == PropName.num (JNum.fin 0))) = true
  · simp [hb] at h
  · have hb' : (n.isFalsy && !(n == PropName.num (JNum.fin 0))) = false :=
      Bool.not_eq_true _ ▸ eq_false_of_ne_true hb
    rcases hcv : createValidator r topLevelKinds none with e | w
    · simp [hb', hcv] at h
    · simp [hb', hcv] at h
      exact ⟨w, rfl, h.symm⟩

/-- C10.  Prop name edge cases: compiling a `prop` rule named by the empty
string raises the invalid-key-name `SchemaError`; compiling a `prop` rule
named by the number `0` succeeds whenever its sub-rule compiles; at run time a
compiled `prop` validator does nothing when the outer input is not a non-null
object. -/
theorem c10_prop_name_edge_cases :
    (∀ r, propRule (PropName.str "") r =
      .error ⟨"Invalid \"prop\" rule: \"name\" must be a valid key or index"⟩)
    ∧ (∀ r, isOkE (createValidator r topLevelKinds none) = true →
      isOkE (propRule (PropName.num (JNum.fin 0)) r) = true)
    ∧ (∀ n r x, isOkE (propRule n r) = true →
      (jsTypeof x ≠ "object" ∨ x = JSValue.null) →
      appRun (propRule n r) x = some (.ok ())) := by
  refine ⟨?_, ?_, ?_⟩
  · intro r
    simp [propRule, PropName.isFalsy]
  · intro r h
    rcases hcv : createValidator r topLevelKinds none with e | v
    · simp [isOkE, hcv] at h
    · simp [propRule, hcv, isOkE, PropName.isFalsy, JNum.isNaN]
  · intro n r x h hx
    rcases hpr : propRule n r with e | v
    · simp [isOkE, hpr] at h
    · obtain ⟨w, hw, rfl⟩ := propRule_ok_inv n r v hpr
      rcases hx with hx | rfl
      · cases x <;> simp_all [appRun, hpr, propRun, jsTypeof]
      · simp [appRun, hpr, propRun]

/-- C10 witness: the three clauses applied at concrete rules and inputs. -/
theorem c10_witness :
    propRule (PropName.str "") (Rule.prim .string []) =
      .error ⟨"Invalid \"prop\" rule: \"name\" must be a valid key or index"⟩
    ∧ isOkE (propRule (PropName.num (JNum.fin 0)) (Rule.prim .string [])) = true
    ∧ appRun (propRule (PropName.str "a") (Rule.prim .string [])) (.num (.fin 1)) =
      some (.ok ()) := by
  refine ⟨c10_prop_name_edge_cases.1 (Rule.prim .string []),
    c10_prop_name_edge_cases.2.1 (Rule.prim .string [])
      (by simp [isOkE, createValidator, ruleMaker, createPrimitiveRule, createSubValidators,
        Rule.type, PrimKind.name, topLevelKinds, primWhitelist]),
    c10_prop_name_edge_cases.2.2 (PropName.str "a") (Rule.prim .string [])
      (.num (.fin 1))
      (by simp [isOkE, propRule, PropName.isFalsy, createValidator, ruleMaker,
        createPrimitiveRule, createSubValidators, Rule.type, PrimKind.name,
        topLevelKinds, primWhitelist])
      (Or.inl (by simp [jsTypeof]))⟩

/-! Lemmas for the OR semantics of `any` nodes. -/

/-- None of the `any` whitelists admits a `mismatch` child. -/
theorem anyWhitelist_no_mismatch (t : String) :
    (anyWhitelist t).contains "mismatch" = false := by
  unfold anyWhitelist
  split_ifs <;> rfl

/-- A successful `createSubValidators` run over a whitelist without
`mismatch` compiles the children pointwise, in order, appending their
validators to the accumulator. -/
theorem csv_ok_forall₂ (parent : Rule) (allowed : List String)
    (hnm : allowed.contains "mismatch" = false) :
    ∀ (rs : List Rule) (idx : Nat) (acc : List Validator) (mm : Option String)
      (vs : List Validator) (mmf : Option String),
      createSubValidators parent rs idx allowed acc mm = .ok (vs, mmf) →
      ∃ ws, vs = acc ++ ws ∧
        List.Forall₂ (fun r w => createValidator r allowed (some parent) = .ok w) rs ws := by
  intro rs
  induction rs with
  | nil =>
    intro idx acc mm vs mmf h
    rw [createSubValidators] at h
    simp at h
    exact ⟨[], by simp [h.1], List.Forall₂.nil⟩
  | cons hd tl ih =>
    intro idx acc mm vs mmf h
    rw [createSubValidators] at h
    by_cases hmis : (hd.type == "mismatch") = true
    · have htype : hd.type = "mismatch" := by simpa using hmis
      have hfind : (allowed.find? (fun ar => ar == hd.type)).isNone = true := by
        rw [htype]
        exact (find_none_iff allowed "mismatch").mpr hnm
      simp [hmis, hfind] at h
    · rcases hcv : createValidator hd allowed (some parent) with e | v
      · simp [hmis, hcv] at h
      · simp only [hmis] at h
        simp [hcv] at h
        obtain ⟨ws, hvs, hfa⟩ := ih (idx + 1) (acc ++ [v]) mm vs mmf h
        exact ⟨v :: ws, by simp [hvs], List.Forall₂.cons hcv hfa⟩

/-- Inversion of a successfully compiled `any` node: the children compiled
(with at least two validators) and the node's validator is their OR
alternation. -/
theorem anyRule_ok_inv (rs : List Rule) (p : Rule) (va : Validator)
    (h : anyRule rs (some p) = .ok va) :
    ∃ vs mmf, createSubValidators p rs 0 (anyWhitelist p.type) [] none = .ok (vs, mmf)
      ∧ 2 ≤ vs.length ∧ va = anyRun vs := by
  rw [anyRule] at h
  by_cases ht : (p.type == "string" || p.type == "number" || p.type == "boolean" ||
      p.type == "date") = true
  · rw [if_pos ht] at h
    rcases hcsv : createSubValidators p rs 0 (anyWhitelist p.type) [] none with e | ⟨vs, mmf⟩
    · simp [hcsv] at h
    · rw [hcsv] at h
      by_cases hlen : vs.length < 2
      · simp [hlen] at h
      · simp [hlen] at h
        exact ⟨vs, mmf, rfl, by omega, h.symm⟩
  · rw [if_neg ht] at h
    cases h

/-- A split of the left list of a `Forall₂` induces a matching split of the
right list. -/
theorem forall₂_append_cons_inv {α β : Type} {R : α → β → Prop} :
    ∀ (pre : List α) (c : α) (post : List α) (ws : List β),
      List.Forall₂ R (pre ++ c :: post) ws →
      ∃ wpre wc wpost, ws = wpre ++ wc :: wpost ∧ List.Forall₂ R pre wpre
        ∧ R c wc ∧ List.Forall₂ R post wpost := by
  intro pre
  induction pre with
  | nil =>
    intro c post ws h
    cases h with
    | cons h1 h2 => exact ⟨[], _, _, rfl, List.Forall₂.nil, h1, h2⟩
  | cons hd tl ih =>
    intro c post ws h
    cases h with
    | cons h1 h2 =>
      obtain ⟨wpre, wc, wpost, rfl, hfa, hc, hfa2⟩ := ih c post _ h2
      exact ⟨_ :: wpre, wc, wpost, rfl, List.Forall₂.cons h1 hfa, hc, hfa2⟩

/-- When every validator before the split point fails and the validator at
the split point succeeds, the alternative collection succeeds. -/
theorem collect_ok_of_split (x : JSValue) :
    ∀ (wpre : List Validator) (wc : Validator) (wpost : List Validator),
      (∀ w ∈ wpre, ∃ e, w x = .error e) → wc x = .ok () →
      collectAlternatives (wpre ++ wc :: wpost) x = none := by
  intro wpre
  induction wpre with
  | nil =>
    intro wc wpost _ hok
    simp [collectAlternatives, hok]
  | cons hd tl ih =>
    intro wc wpost hfail hok
    obtain ⟨e, he⟩ := hfail hd (List.mem_cons_self hd tl)
    have := ih wc wpost (fun w hw => hfail w (List.mem_cons_of_mem hd hw)) hok
    simp [collectAlternatives, he, this]

/-- When every validator fails, the alternative collection gathers all their
messages in order. -/
theorem collect_all_fail (x : JSValue) :
    ∀ (ws : List Validator), (∀ w ∈ ws, ∃ e, w x = .error e) →
      ∃ msgs, collectAlternatives ws x = some msgs
        ∧ List.Forall₂ (fun w msg => ∃ e, w x = .error e ∧ e.message = msg) ws msgs := by
  intro ws
  induction ws with
  | nil =>
    intro _
    exact ⟨[], rfl, List.Forall₂.nil⟩
  | cons hd tl ih =>
    intro hfail
    obtain ⟨e, he⟩ := hfail hd (List.mem_cons_self hd tl)
    obtain ⟨msgs, hcol, hfa⟩ := ih (fun w hw => hfail w (List.mem_cons_of_mem hd hw))
    exact ⟨e.message :: msgs, by simp [collectAlternatives, he, hcol],
      List.Forall₂.cons ⟨e, he, rfl⟩ hfa⟩

/-- Every string occurs in itself. -/
theorem mentions_self (s : String) : mentions s s :=
  ⟨"", "", by rw [String.empty_append, String.append_empty]⟩

/-- An occurrence survives surrounding the message on both sides. -/
theorem mentions_wrap (a b m e : String) (h : mentions m e) :
    mentions (a ++ m ++ b) e := by
  obtain ⟨u, w, rfl⟩ := h
  exact ⟨a ++ u, w ++ b, by simp [String.append_assoc]⟩

/-- Every message in the list occurs in the numbered join. -/
theorem joinNumbered_mentions :
    ∀ (errs : List String) (i : Nat) (e : String), e ∈ errs →
      mentions (joinNumbered errs i) e := by
  intro errs
  induction errs with
  | nil =>
    intro i e h
    cases h
  | cons hd tl ih =>
    intro i e h
    rcases List.mem_cons.mp h with rfl | h'
    · cases tl with
      | nil =>
        exact ⟨toString i ++ ". ", "", by simp [joinNumbered, String.append_empty]⟩
      | cons h2 t2 =>
        exact ⟨toString i ++ ". ", ", " ++ joinNumbered (h2 :: t2) (i + 1),
          by simp [joinNumbered, String.append_assoc]⟩
    · cases tl with
      | nil => cases h'
      | cons h2 t2 =>
        obtain ⟨a, b, hab⟩ := ih (i + 1) e h'
        exact ⟨toString i ++ ". " ++ hd ++ ", " ++ a, b,
          by simp [joinNumbered, hab, String.append_assoc]⟩

/-- The collected messages are as many as the validators. -/
theorem collect_some_length (x : JSValue) :
    ∀ (ws : List Validator) (msgs : List String),
      collectAlternatives ws x = some msgs → msgs.length = ws.length := by
  intro ws
  induction ws with
  | nil =>
    intro msgs h
    simp [collectAlternatives] at h
    simp [h.symm]
  | cons hd tl ih =>
    intro msgs h
    rw [collectAlternatives] at h
    rcases he : hd x with e | u
    · simp [he] at h
      obtain ⟨a, ha, rfl⟩ := h
      simp [ih a ha]
    · simp [he] at h

/-- Transfer a per-message property along the two pointwise relations tying
rules to validators and validators to messages. -/
theorem forall₂_childRun_mentions (p : Rule) (x : JSValue) (msg : String) :
    ∀ (rs : List Rule) (ws : List Validator) (msgs : List String),
      List.Forall₂ (fun r w =>
        createValidator r (anyWhitelist p.type) (some p) = .ok w) rs ws →
      List.Forall₂ (fun w m => ∃ e, w x = .error e ∧ e.message = m) ws msgs →
      (∀ m ∈ msgs, mentions msg m) →
      ∀ r ∈ rs, ∃ e, childRun p r x = some (.error e) ∧ mentions msg e.message := by
  intro rs
  induction rs with
  | nil =>
    intro ws msgs _ _ _ r hr
    cases hr
  | cons hd tl ih =>
    intro ws msgs h1 h2 hm r hr
    cases h1 with
    | cons hcv hfa =>
      cases h2 with
      | cons hwm hfa2 =>
        rcases List.mem_cons.mp hr with rfl | hr'
        · obtain ⟨e, he, rfl⟩ := hwm
          exact ⟨e, by simp [childRun, appRun, hcv, he],
            hm e.message (List.mem_cons_self _ _)⟩
        · exact ih _ _ hfa hfa2 (fun m hmm => hm m (List.mem_cons_of_mem _ hmm)) r hr'

/-- Failing `childRun`s make the corresponding compiled validators fail. -/
theorem forall₂_childRun_fail (p : Rule) (x : JSValue) :
    ∀ (rs : List Rule) (ws : List Validator),
      List.Forall₂ (fun r w =>
        createValidator r (anyWhitelist p.type) (some p) = .ok w) rs ws →
      (∀ r ∈ rs, childRun p r x ≠ some (.ok ())) →
      ∀ w ∈ ws, ∃ e, w x = .error e := by
  intro rs
  induction rs with
  | nil =>
    intro ws h _ w hw
    cases h
    cases hw
  | cons hd tl ih =>
    intro ws h hfail w hw
    cases h with
    | cons hcv hfa =>
      rcases List.mem_cons.mp hw with rfl | hw'
      · rcases hd_run : w x with e | u
        · exact ⟨e, rfl⟩
        · cases u
          exact absurd (by simp [childRun, appRun, hcv, hd_run])
            (hfail hd (List.mem_cons_self _ _))
      · exact ih _ hfa (fun r hr => hfail r (List.mem_cons_of_mem _ hr)) w hw'

/-- C4.  OR semantics of `any`: for every compiled `any` node, the child
validators are tried in declaration order and the first child that succeeds
makes the node succeed regardless of the children after it; when every child
fails, the node throws one combined `ValidationError` whose message mentions
every child's failure message. -/
theorem c4_any_or_semantics (parent : Rule) (rs : List Rule) (x : JSValue)
    (hok : isOkE (anyRule rs (some parent)) = true) :
    (∀ pre c post, rs = pre ++ c :: post →
      (∀ r ∈ pre, childRun parent r x ≠ some (.ok ())) →
      childRun parent c x = some (.ok ()) →
      appRun (anyRule rs (some parent)) x = some (.ok ()))
    ∧ ((∀ r ∈ rs, childRun parent r x ≠ some (.ok ())) →
      ∃ msg, appRun (anyRule rs (some parent)) x = some (.error ⟨msg⟩)
        ∧ ∀ r ∈ rs, ∃ e, childRun parent r x = some (.error e)
          ∧ mentions msg e.message) := by
  rcases hany : anyRule rs (some parent) with e | va
  · simp [isOkE, hany] at hok
  · obtain ⟨vs, mmf, hcsv, hlen, rfl⟩ := anyRule_ok_inv rs parent va hany
    obtain ⟨ws, hws, hfa⟩ := csv_ok_forall₂ parent (anyWhitelist parent.type)
      (anyWhitelist_no_mismatch parent.type) rs 0 [] none vs mmf hcsv
    simp at hws
    subst hws
    constructor
    · intro pre c post hsplit hfail hsucc
      subst hsplit
      obtain ⟨wpre, wc, wpost, rfl, hfa1, hc, hfa2⟩ :=
        forall₂_append_cons_inv pre c post vs hfa
      have hwc : wc x = .ok () := by
        simp [childRun, appRun, hc] at hsucc
        exact hsucc
      have hpre : ∀ w ∈ wpre, ∃ e, w x = .error e :=
        forall₂_childRun_fail parent x pre wpre hfa1
          (fun r hr => hfail r hr)
      have hcol := collect_ok_of_split x wpre wc wpost hpre hwc
      simp [appRun, hany, anyRun, hcol]
    · intro hfail
      have hwsfail : ∀ w ∈ vs, ∃ e, w x = .error e :=
        forall₂_childRun_fail parent x rs vs hfa hfail
      obtain ⟨msgs, hcol, hfa2⟩ := collect_all_fail x vs hwsfail
      have hlen2 : msgs.length = vs.length := collect_some_length x vs msgs hcol
      refine ⟨"not eligible: (" ++ joinNumbered msgs 1 ++ ")", ?_, ?_⟩
      · rcases msgs with _ | ⟨m1, _ | ⟨m2, rest⟩⟩
        · simp at hlen2
          omega
        · simp at hlen2
          omega
        · simp [appRun, hany, anyRun, hcol]
      · intro r hr
        apply forall₂_childRun_mentions parent x _ rs vs msgs hfa hfa2 ?_ r hr
        intro m hm
        exact mentions_wrap "not eligible: (" ")" (joinNumbered msgs 1) m
          (joinNumbered_mentions msgs 1 m hm)

/-- C4 witness: under a number container, `any(min(10), max(5))` applied to
`3` succeeds through its second child after the first rejects. -/
theorem c4_witness :
    appRun (anyRule [Rule.min (.fin 10) none, Rule.max (.fin 5) none]
      (some (Rule.prim .number []))) (.num (.fin 3)) = some (.ok ()) := by
  have hok : isOkE (anyRule [Rule.min (.fin 10) none, Rule.max (.fin 5) none]
      (some (Rule.prim .number []))) = true := by
    simp [isOkE, anyRule, createSubValidators, createValidator, ruleMaker, leafMaker,
      minRule, maxRule, valueRuleBase, Rule.type, PrimKind.name, anyWhitelist,
      JNum.isNaN]
  exact (c4_any_or_semantics (Rule.prim .number [])
      [Rule.min (.fin 10) none, Rule.max (.fin 5) none] (.num (.fin 3)) hok).1
    [Rule.min (.fin 10) none] (Rule.max (.fin 5) none) [] rfl
    (fun r hr => by
      have hr' : r = Rule.min (.fin 10) none := by simpa using hr
      subst hr'
      simp [childRun, appRun, createValidator, ruleMaker, leafMaker, minRule,
        valueRuleBase, anyWhitelist, Rule.type, PrimKind.name, parentType,
        inputNum, JNum.isNaN, JNum.lt]
      norm_num)
    (by
      simp [childRun, appRun, createValidator, ruleMaker, leafMaker, maxRule,
        valueRuleBase, anyWhitelist, Rule.type, PrimKind.name, parentType,
        inputNum, JNum.isNaN, JNum.gt, JNum.lt]
      norm_num)

end ThorValidation
